import Mathlib

/-
Verification of the Boomerang interpreter (final iteration:
interpreter/parser_/ast_objects.py, interpreter/parser_/parser_.py,
interpreter/evaluator/evaluator.py).

Machine numbers: the interpreter stores Python floats in Number nodes; the
claims under verification only exercise exact arithmetic (whole numbers,
exact division), so Number values are embedded as rationals.
-/

namespace Boomerang

/-! ## Tokens

Modelled from the spec: interpreter/tokens/tokens.py is not part of the
sources; the spec describes a Token as value/kind/line and names the token
kinds.  Each token-type constant is modelled as its own name.  parser_.py
shadows some imported token names with same-valued precedence names, so a
single constant serves both roles. -/

structure Tok where
  value : String
  type : String
  line_num : Nat
deriving DecidableEq, Repr

def LOWEST : String := "LOWEST"
def ASSIGN : String := "ASSIGN"
def COMPARE : String := "COMPARE"
def SUM : String := "SUM"
def PRODUCT : String := "PRODUCT"
def SEND : String := "SEND"

def POINTER : String := "POINTER"
def PLUS : String := "PLUS"
def MINUS : String := "MINUS"
def BANG : String := "BANG"
def OR : String := "OR"
def AND : String := "AND"
def MULTIPLY : String := "MULTIPLY"
def DIVIDE : String := "DIVIDE"
def MOD : String := "MOD"
def EQ : String := "EQ"
def NE : String := "NE"
def LT : String := "LT"
def LE : String := "LE"
def GT : String := "GT"
def GE : String := "GE"
def NUMBER : String := "NUMBER"
def STRING : String := "STRING"
def BOOLEAN : String := "BOOLEAN"
def IDENTIFIER : String := "IDENTIFIER"
def OPEN_PAREN : String := "OPEN_PAREN"
def CLOSED_PAREN : String := "CLOSED_PAREN"
def COMMA : String := "COMMA"
def SEMICOLON : String := "SEMICOLON"
def COLON : String := "COLON"
def FUNCTION : String := "FUNCTION"
def WHEN : String := "WHEN"
def IS : String := "IS"
def ELSE : String := "ELSE"
def EOF : String := "EOF"
def INDEX : String := "INDEX"

/-! ## AST node model (interpreter/parser_/ast_objects.py)

One constructor per concrete class; every variant carries line_num first.
The constructors binaryExpression, unaryExpression and factorial are
modelled from the spec: parser_.py builds BinaryExpression, UnaryExpression
and Factorial nodes but their class definitions are not among the sources
(the spec describes them as
BinaryExpression(operator, left, right) / UnaryExpression(operator, operand)
/ Factorial(operand), each carrying a line). -/

inductive Expression where
  | number (line_num : Nat) (value : ℚ)
  | str (line_num : Nat) (value : String)
  | boolean (line_num : Nat) (value : Bool)
  | list (line_num : Nat) (values : List Expression)
  | function (line_num : Nat) (parameters : List Expression) (body : Expression)
  | functionCall (line_num : Nat) (function : Expression) (call_params : Expression)
  | identifier (line_num : Nat) (value : String)
  | when (line_num : Nat) (expression : Expression)
      (case_expressions : List (Expression × Expression))
  | forLoop (line_num : Nat) (element_identifier : String) (values : Expression)
      (conditional_expr : Expression) (expression : Expression)
  | builtinFunction (line_num : Nat) (name : String)
  | prefixExpression (line_num : Nat) (operator : Tok) (expression : Expression)
  | infixExpression (line_num : Nat) (left : Expression) (operator : Tok) (right : Expression)
  | postfixExpression (line_num : Nat) (operator : Tok) (expression : Expression)
  | assignment (line_num : Nat) (name : String) (value : Expression)
  | error (line_num : Nat) (message : String)
  | binaryExpression (line_num : Nat) (left : Expression) (operator : Tok) (right : Expression)
  | unaryExpression (line_num : Nat) (operator : Tok) (expression : Expression)
  | factorial (line_num : Nat) (expression : Expression)

/-- The `line` every AST node carries (base-class field `line_num`). -/
def Expression.line_num : Expression → Nat
  | .number l _ => l
  | .str l _ => l
  | .boolean l _ => l
  | .list l _ => l
  | .function l _ _ => l
  | .functionCall l _ _ => l
  | .identifier l _ => l
  | .when l _ _ => l
  | .forLoop l _ _ _ _ => l
  | .builtinFunction l _ => l
  | .prefixExpression l _ _ => l
  | .infixExpression l _ _ _ => l
  | .postfixExpression l _ _ => l
  | .assignment l _ _ => l
  | .error l _ => l
  | .binaryExpression l _ _ _ => l
  | .unaryExpression l _ _ => l
  | .factorial l _ => l

/-- Replacing a node's `line_num` field (used for the evaluator's identifier
re-stamp `variable_value.line_num = identifier.line_num` and for the
parser's `copy(switch_expression)` + line overwrite in parse_when). -/
def setLine (l : Nat) : Expression → Expression
  | .number _ v => .number l v
  | .str _ v => .str l v
  | .boolean _ v => .boolean l v
  | .list _ vs => .list l vs
  | .function _ ps b => .function l ps b
  | .functionCall _ f a => .functionCall l f a
  | .identifier _ v => .identifier l v
  | .when _ e cs => .when l e cs
  | .forLoop _ i vs c e => .forLoop l i vs c e
  | .builtinFunction _ n => .builtinFunction l n
  | .prefixExpression _ o e => .prefixExpression l o e
  | .infixExpression _ a o b => .infixExpression l a o b
  | .postfixExpression _ o e => .postfixExpression l o e
  | .assignment _ n v => .assignment l n v
  | .error _ m => .error l m
  | .binaryExpression _ a o b => .binaryExpression l a o b
  | .unaryExpression _ o e => .unaryExpression l o e
  | .factorial _ e => .factorial l e

/-- The `type(self).__name__` string for each concrete class. -/
def typeName : Expression → String
  | .number _ _ => "Number"
  | .str _ _ => "String"
  | .boolean _ _ => "Boolean"
  | .list _ _ => "List"
  | .function _ _ _ => "Function"
  | .functionCall _ _ _ => "FunctionCall"
  | .identifier _ _ => "Identifier"
  | .when _ _ _ => "When"
  | .forLoop _ _ _ _ _ => "ForLoop"
  | .builtinFunction _ _ => "BuiltinFunction"
  | .prefixExpression _ _ _ => "PrefixExpression"
  | .infixExpression _ _ _ _ => "InfixExpression"
  | .postfixExpression _ _ _ => "PostfixExpression"
  | .assignment _ _ _ => "Assignment"
  | .error _ _ => "Error"
  | .binaryExpression _ _ _ _ => "BinaryExpression"
  | .unaryExpression _ _ _ => "UnaryExpression"
  | .factorial _ _ => "Factorial"

end Boomerang

namespace Boomerang

/-! ## utils (interpreter/utils/utils.py)

Modelled from the spec: utils.py is not among the sources.  Per the spec,
language-runtime errors carry the failing line and a message, and division
or modulo by zero raises a dedicated divide-by-zero error. -/

structure LangError where
  line_num : Nat
  message : String
deriving DecidableEq, Repr

/-- Modelled from the spec: `language_error(line_num, message)` builds the
LanguageRuntimeException carrying that line and message. -/
def language_error (line_num : Nat) (message : String) : LangError :=
  ⟨line_num, message⟩

/-- Modelled from the spec: the dedicated divide-by-zero error of
`divide_by_zero_error(line_num)`. -/
def divide_by_zero_error (line_num : Nat) : LangError :=
  ⟨line_num, "division by zero"⟩

/-! ## Value equality: the per-class `__eq__` methods of ast_objects.py.

Every concrete class overrides `__eq__`; each override first checks
`isinstance(other, <same class>)` and returns False otherwise, then compares
the class's payload fields (line numbers are never compared).  Lists and
case-expression lists compare elementwise, as Python `==` on list/tuple does.
The three spec-modelled node kinds compare structurally. -/

mutual

def eqb : Expression → Expression → Bool
  | .number _ v, b => match b with | .number _ w => v == w | _ => false
  | .str _ s, b => match b with | .str _ t => s == t | _ => false
  | .boolean _ v, b => match b with | .boolean _ w => v == w | _ => false
  | .list _ vs, b => match b with | .list _ ws => eqbList vs ws | _ => false
  | .function _ ps bd, b =>
      match b with | .function _ qs c => eqbList ps qs && eqb bd c | _ => false
  | .functionCall _ f a, b =>
      match b with | .functionCall _ g c => eqb f g && eqb a c | _ => false
  | .identifier _ v, b => match b with | .identifier _ w => v == w | _ => false
  | .when _ e cs, b => match b with | .when _ f ds => eqb e f && eqbPairs cs ds | _ => false
  | .forLoop _ i vs c e, b =>
      match b with
      | .forLoop _ j ws d f => i == j && eqb vs ws && eqb c d && eqb e f
      | _ => false
  | .builtinFunction _ n, b => match b with | .builtinFunction _ m => n == m | _ => false
  | .prefixExpression _ o e, b =>
      match b with | .prefixExpression _ p f => o == p && eqb e f | _ => false
  | .infixExpression _ a o c, b =>
      match b with | .infixExpression _ d p f => eqb a d && o == p && eqb c f | _ => false
  | .postfixExpression _ o e, b =>
      match b with | .postfixExpression _ p f => o == p && eqb e f | _ => false
  | .assignment _ n v, b => match b with | .assignment _ m w => n == m && eqb v w | _ => false
  | .error _ m, b => match b with | .error _ n => m == n | _ => false
  | .binaryExpression _ a o c, b =>
      match b with | .binaryExpression _ d p f => eqb a d && o == p && eqb c f | _ => false
  | .unaryExpression _ o e, b =>
      match b with | .unaryExpression _ p f => o == p && eqb e f | _ => false
  | .factorial _ e, b => match b with | .factorial _ f => eqb e f | _ => false

def eqbList : List Expression → List Expression → Bool
  | [], [] => true
  | a :: as, b :: bs => eqb a b && eqbList as bs
  | _, _ => false

def eqbPairs : List (Expression × Expression) → List (Expression × Expression) → Bool
  | [], [] => true
  | (a, b) :: xs, (c, d) :: ys => eqb a c && eqb b d && eqbPairs xs ys
  | _, _ => false

end

/-! ## Capability methods (ast_objects.py)

Each capability is one function matching on the concrete class, with the
base-class default (a language error naming the operand types and the
operation) as the fallthrough case. -/

/-- Method `Expression.eq`: `Boolean(self.line_num, self == other)`. -/
def Expression.eq (self other : Expression) : Expression :=
  .boolean self.line_num (eqb self other)

/-- Method `Expression.ne`: `Boolean(self.line_num, not self.eq(other).value)`. -/
def Expression.ne (self other : Expression) : Expression :=
  .boolean self.line_num (!(eqb self other))

/-- Method `Number.is_whole_number`: `self.value % 1 == 0`, i.e. the rational is an
integer (denominator 1). -/
def is_whole_number (q : ℚ) : Bool :=
  q.den == 1

/-- Python `int(...)` truncation toward zero on a rational. -/
def truncInt (q : ℚ) : ℤ :=
  q.num.tdiv q.den

/-- Python `str(...)` of a Number: `int(self.value)` when whole (Python prints the
int), otherwise the value itself (only the whole case is reachable from the
claims). -/
def numStr (q : ℚ) : String :=
  if is_whole_number q then toString (truncInt q) else toString q

/-- Methods `Number.add` / `String.add` / `List.add` with the base-class default. -/
def Expression.add : Expression → Expression → Except LangError Expression
  | .number l v, .number _ w => .ok (.number l (v + w))
  | .str l s, .str _ t => .ok (.str l (s ++ t))
  | .list l vs, .list _ ws => .ok (.list l (vs ++ ws))
  | a, b => .error (language_error a.line_num
      ("invalid types " ++ typeName a ++ " and " ++ typeName b ++ " for " ++ PLUS))

/-- Methods `Number.sub` / `List.sub` with the base-class default.  `List.sub`
repeatedly filters the left list, keeping the values `v` with
`v.ne(value_to_remove).value` for each element of the right list. -/
def Expression.sub : Expression → Expression → Except LangError Expression
  | .number l v, .number _ w => .ok (.number l (v - w))
  | .list l vs, .list _ ws =>
      .ok (.list l (ws.foldl (fun new_values value_to_remove =>
        new_values.filter (fun v => !(eqb v value_to_remove))) vs))
  | a, b => .error (language_error a.line_num
      ("invalid types " ++ typeName a ++ " and " ++ typeName b ++ " for " ++ MINUS))

/-- Method `Number.mul` with the base-class default. -/
def Expression.mul : Expression → Expression → Except LangError Expression
  | .number l v, .number _ w => .ok (.number l (v * w))
  | a, b => .error (language_error a.line_num
      ("invalid types " ++ typeName a ++ " and " ++ typeName b ++ " for " ++ MULTIPLY))

/-- Method `Number.div` with the zero check and the base-class default. -/
def Expression.div : Expression → Expression → Except LangError Expression
  | .number l v, .number _ w =>
      if w == 0 then .error (divide_by_zero_error l)
      else .ok (.number l (v / w))
  | a, b => .error (language_error a.line_num
      ("invalid types " ++ typeName a ++ " and " ++ typeName b ++ " for " ++ DIVIDE))

/-- Python float `%`: `a - b * floor(a / b)` (sign follows the divisor). -/
def pymod (a b : ℚ) : ℚ :=
  a - b * ⌊a / b⌋

/-- Method `Number.mod` with the zero check and the base-class default. -/
def Expression.mod : Expression → Expression → Except LangError Expression
  | .number l v, .number _ w =>
      if w == 0 then .error (divide_by_zero_error l)
      else .ok (.number l (pymod v w))
  | a, b => .error (language_error a.line_num
      ("invalid types " ++ typeName a ++ " and " ++ typeName b ++ " for " ++ MOD))

/-- Python `[i for i in range(2, start + 1)]` as rationals. -/
def rangeFrom2 (start : ℤ) : List ℚ :=
  (List.range' 2 (start - 1).toNat).map (fun n => (n : ℚ))

/-- Python `reduce(lambda a, b: a * b, values)`.  Python's reduce raises on an
empty list; `Number.fac` only reaches it with `start >= 2`, so the empty
case is unreachable (mapped to 0 here). -/
def reduce_mul : List ℚ → ℚ
  | [] => 0
  | h :: t => t.foldl (fun a b => a * b) h

/-- Method `Number.fac` with the base-class default for every other class. -/
def Expression.fac : Expression → Except LangError Expression
  | .number l v =>
      if !(is_whole_number v) then
        .error (language_error l "expression for factorial must be whole number")
      else
        let base_number := truncInt v
        if base_number == 0 || base_number == 1 then .ok (.number l 1)
        else
          -- For negative numbers, factorial is offset by 1 from its
          -- positive counterparts: abs(base_number) + 1.
          let start_number := if base_number < 0 then (base_number.natAbs : ℤ) + 1
                              else base_number
          .ok (.number l (reduce_mul (rangeFrom2 start_number)))
  | e => .error (language_error e.line_num
      ("invalid type " ++ typeName e ++ " for factorial"))

/-- Method `List.ptr` appends any Expression operand as one element of a new List;
`Function.ptr` builds a FunctionCall from a List operand; `BuiltinFunction.ptr`
dispatches builtins (I/O and randomness — not modelled, no claim depends on
it); every other class falls through to the base-class default. -/
def Expression.ptr : Expression → Expression → Except LangError Expression
  | .list l vs, other => .ok (.list l (vs ++ [other]))
  | .function l ps b, other =>
      match other with
      | .list l2 ws => .ok (.functionCall l (.function l ps b) (.list l2 ws))
      | _ => .error (language_error l
          ("invalid types Function and " ++ typeName other ++ " for " ++ SEND))
  | .builtinFunction l n, _ =>
      .error (language_error l ("builtin function dispatch not modelled: " ++ n))
  | a, b => .error (language_error a.line_num
      ("invalid types " ++ typeName a ++ " and " ++ typeName b ++ " for " ++ SEND))

/-- Python `self.values[int(other.value)]` under the in-range guard of
`List.at` (negative indices count from the end).  The default is
unreachable: the guard ensures the index is in range. -/
def pyGet (vs : List Expression) (k : ℤ) : Expression :=
  if k < 0 then vs.getD ((vs.length : ℤ) + k).toNat (.number 0 0)
  else vs.getD k.toNat (.number 0 0)

/-- Method `List.at` (named at' since `at` is reserved in Lean): whole-number check,
Python-style range check `-len(values) <= value < len(values)`, element
access, out-of-range error; base-class default otherwise. -/
def Expression.at' : Expression → Expression → Except LangError Expression
  | .list l vs, .number _ q =>
      if !(is_whole_number q) then
        .error (language_error l "list index must be a whole number")
      else if -(vs.length : ℚ) ≤ q ∧ q < (vs.length : ℚ) then
        .ok (pyGet vs (truncInt q))
      else
        .error (language_error l ("list index " ++ numStr q ++ " is out of range"))
  | .list l _, other => .error (language_error l
      ("invalid types List and " ++ typeName other ++ " for " ++ INDEX))
  | a, b => .error (language_error a.line_num
      ("invalid types " ++ typeName a ++ " and " ++ typeName b ++ " for " ++ INDEX))

end Boomerang

namespace Boomerang

/-! ## Parser (interpreter/parser_/parser_.py)

The parser runs over the token stream delivered by the TokenQueue
(tokenizer and queue are not among the sources); it is embedded as
functions over the remaining token list, where `self.current` is the head,
`self.peek` the second element and `self.advance()` drops the head.
Reading past the end of the stream raises in the queue; that and every
parse error are both `none` here.  The recursion of the Python methods is
made total with a fuel argument; every claim about the parser is stated
for an arbitrary or a sufficiently large fuel. -/

namespace Parser

/-- Field `self.precedences`: ordered precedence names, lowest first. -/
def precedences : List String :=
  [LOWEST, ASSIGN, COMPARE, SUM, PRODUCT, SEND]

/-- Field `self.infix_precedence`: operator token type → precedence name. -/
def infix_precedence : List (String × String) :=
  [(POINTER, SEND),
   (PLUS, SUM), (MINUS, SUM), (BANG, SUM), (OR, SUM), (AND, SUM),
   (MULTIPLY, PRODUCT), (DIVIDE, PRODUCT),
   (EQ, COMPARE), (NE, COMPARE), (LT, COMPARE), (LE, COMPARE),
   (GT, COMPARE), (GE, COMPARE)]

/-- Method `get_precedence_level`: index in `precedences` plus 1. -/
def get_precedence_level (precedence_name : String) : Nat :=
  precedences.indexOf precedence_name + 1

/-- Method `get_next_precedence_level` for a current token type:
`precedence_dict.get(self.current.type, LOWEST)` then its level. -/
def get_next_precedence_level (current_type : String) : Nat :=
  get_precedence_level ((infix_precedence.lookup current_type).getD LOWEST)

/-- Registry `BuiltinFunction.builtin_function_names`. -/
def builtin_function_names : List String :=
  ["print", "randint", "randfloat", "len", "range", "round", "input"]

/-- The digits of a numeric token literal as a natural number. -/
def digitsToNat (acc : Nat) : List Char → Nat
  | [] => acc
  | c :: cs => digitsToNat (acc * 10 + (c.toNat - 48)) cs

/-- Split a numeric token literal at its (single) embedded dot. -/
def splitDot : List Char → List Char × Option (List Char)
  | [] => ([], none)
  | c :: cs =>
      if c == '.' then ([], some cs)
      else
        let p := splitDot cs
        (c :: p.1, p.2)

/-- Python `float(number_token.value)` on the tokenizer's digit-run literals
(digits with at most one embedded dot). -/
def strToRat (s : String) : ℚ :=
  match splitDot s.data with
  | (w, none) => (digitsToNat 0 w : ℚ)
  | (w, some f) => (digitsToNat 0 w : ℚ) + (digitsToNat 0 f : ℚ) / ((10 : ℚ) ^ f.length)

/-- Method `parse_number`. -/
def parse_number : List Tok → Option (Expression × List Tok)
  | number_token :: rest => some (.number number_token.line_num (strToRat number_token.value), rest)
  | [] => none

/-- Method `parse_string`. -/
def parse_string : List Tok → Option (Expression × List Tok)
  | string_token :: rest => some (.str string_token.line_num string_token.value, rest)
  | [] => none

/-- Method `parse_boolean`: compares the literal against `get_token_literal("TRUE")`,
modelled as "true". -/
def parse_boolean : List Tok → Option (Expression × List Tok)
  | boolean_token :: rest =>
      some (.boolean boolean_token.line_num (boolean_token.value == "true"), rest)
  | [] => none

/-- Method `parse_identifier`: a BuiltinFunction node for a builtin name, an
Identifier node otherwise. -/
def parse_identifier : List Tok → Option (Expression × List Tok)
  | identifier_token :: rest =>
      if builtin_function_names.contains identifier_token.value then
        some (.builtinFunction identifier_token.line_num identifier_token.value, rest)
      else
        some (.identifier identifier_token.line_num identifier_token.value, rest)
  | [] => none

mutual

/-- Method `expression(precedence_name)`: parse one prefix term, then consume infix
operators while the next operator's level exceeds the floor. -/
def expression : Nat → String → List Tok → Option (Expression × List Tok)
  | 0, _, _ => none
  | fuel + 1, precedence_name, toks => do
      let (left, t1) ← parse_prefix_term fuel toks
      infix_loop fuel (get_precedence_level precedence_name) left t1

termination_by structural fuel => fuel

/-- The `while` loop inside `expression`: the current token must exist
(`self.current is not None`) and its precedence level must exceed the floor. -/
def infix_loop : Nat → Nat → Expression → List Tok → Option (Expression × List Tok)
  | 0, _, _, _ => none
  | fuel + 1, precedence_level, left, toks =>
      match toks with
      | [] => some (left, [])
      | c :: _ =>
          if precedence_level < get_next_precedence_level c.type then do
            let (left2, t2) ← parse_infix_op fuel left toks
            infix_loop fuel precedence_level left2 t2
          else
            some (left, toks)

termination_by structural fuel => fuel

/-- Method `parse_infix`: postfix `!` builds Factorial without a right operand;
any other operator recurses with its own precedence as the new floor and
builds a BinaryExpression stamped with the operator's line. -/
def parse_infix_op : Nat → Expression → List Tok → Option (Expression × List Tok)
  | 0, _, _ => none
  | fuel + 1, left, toks =>
      match toks with
      | [] => none
      | op :: t1 =>
          if op.type == BANG then
            some (.factorial op.line_num left, t1)
          else do
            let (right, t2) ← expression fuel ((infix_precedence.lookup op.type).getD LOWEST) t1
            some (.binaryExpression op.line_num left op right, t2)

termination_by structural fuel => fuel

/-- Method `parse_prefix`: dispatch on the current token (and one-token peek for
assignment). -/
def parse_prefix_term : Nat → List Tok → Option (Expression × List Tok)
  | 0, _ => none
  | fuel + 1, toks =>
      match toks with
      | [] => none
      | c :: rest =>
          if c.type == IDENTIFIER &&
             (match rest with | p :: _ => p.type == ASSIGN | [] => false) then
            parse_assign fuel toks
          else if c.type == MINUS || c.type == PLUS || c.type == BANG then
            parse_unary_expression fuel toks
          else if c.type == OPEN_PAREN then
            parse_grouped_expression fuel toks
          else if c.type == NUMBER then
            parse_number toks
          else if c.type == STRING then
            parse_string toks
          else if c.type == BOOLEAN then
            parse_boolean toks
          else if c.type == IDENTIFIER then
            parse_identifier toks
          else if c.type == FUNCTION then
            parse_function fuel toks
          else if c.type == WHEN then
            parse_when fuel toks
          else
            none

termination_by structural fuel => fuel

/-- Method `parse_assign`. -/
def parse_assign : Nat → List Tok → Option (Expression × List Tok)
  | 0, _ => none
  | fuel + 1, toks =>
      match toks with
      | [] => none
      | variable_name :: t1 =>
          if variable_name.type == IDENTIFIER then
            match t1 with
            | [] => none
            | a :: t2 =>
                if a.type == ASSIGN then do
                  let (right, t3) ← expression fuel LOWEST t2
                  some (.assignment variable_name.line_num variable_name.value right, t3)
                else none
          else none

termination_by structural fuel => fuel

/-- Method `parse_unary_expression`. -/
def parse_unary_expression : Nat → List Tok → Option (Expression × List Tok)
  | 0, _ => none
  | fuel + 1, toks =>
      match toks with
      | [] => none
      | op :: t1 => do
          let (e, t2) ← expression fuel LOWEST t1
          some (.unaryExpression op.line_num op e, t2)

termination_by structural fuel => fuel

/-- Method `parse_grouped_expression`: after the open paren, a closed paren makes
an empty List — the Python code advances past the `)` first and then stamps
the node with `self.current.line_num`, the line of the token AFTER the
closing paren; otherwise one inner expression, closed by `)` (grouping) or
continued by `,` (list literal). -/
def parse_grouped_expression : Nat → List Tok → Option (Expression × List Tok)
  | 0, _ => none
  | fuel + 1, toks =>
      match toks with
      | [] => none
      | _ :: t1 =>
          match t1 with
          | [] => none
          | c1 :: t2 =>
              if c1.type == CLOSED_PAREN then
                match t2 with
                | [] => none
                | c2 :: _ => some (.list c2.line_num [], t2)
              else do
                let (e, t3) ← expression fuel LOWEST t1
                match t3 with
                | [] => none
                | c3 :: t4 =>
                    if c3.type == CLOSED_PAREN then some (e, t4)
                    else if c3.type == COMMA then parse_list fuel e t4
                    else none

termination_by structural fuel => fuel

/-- Method `parse_list(first_expression)`: called with `self.current` on the token
after the first comma; that token's line stamps the List node. -/
def parse_list : Nat → Expression → List Tok → Option (Expression × List Tok)
  | 0, _, _ => none
  | fuel + 1, first_expression, toks =>
      match toks with
      | [] => none
      | c :: _ => parse_list_loop fuel c.line_num [first_expression] toks

termination_by structural fuel => fuel

/-- The `while True` accumulation loop of `parse_list`. -/
def parse_list_loop : Nat → Nat → List Expression → List Tok → Option (Expression × List Tok)
  | 0, _, _, _ => none
  | fuel + 1, line_num, values, toks =>
      match toks with
      | [] => none
      | c :: rest =>
          if c.type == CLOSED_PAREN then
            some (.list line_num values, rest)
          else do
            let (e, t2) ← expression fuel LOWEST toks
            let values2 := values ++ [e]
            match t2 with
            | [] => none
            | c2 :: t3 =>
                if c2.type == CLOSED_PAREN then some (.list line_num values2, t3)
                else if c2.type == COMMA then parse_list_loop fuel line_num values2 t3
                else none

termination_by structural fuel => fuel

/-- Method `parse_function`: keyword line stamps the node; parenthesized parameter
identifiers, a colon, then one body expression. -/
def parse_function : Nat → List Tok → Option (Expression × List Tok)
  | 0, _ => none
  | fuel + 1, toks =>
      match toks with
      | [] => none
      | c :: t1 =>
          match t1 with
          | [] => none
          | o :: t2 =>
              if o.type == OPEN_PAREN then
                parse_function_params fuel c.line_num [] t2
              else none

termination_by structural fuel => fuel

/-- The parameter-collecting `while True` loop of `parse_function`; each
parameter must parse to an Identifier node. -/
def parse_function_params : Nat → Nat → List Expression → List Tok → Option (Expression × List Tok)
  | 0, _, _, _ => none
  | fuel + 1, line_num, params, toks =>
      match toks with
      | [] => none
      | c :: rest =>
          if c.type == CLOSED_PAREN then
            parse_function_body fuel line_num params rest
          else do
            let (e, t2) ← expression fuel LOWEST toks
            match e with
            | .identifier il iv =>
                let params2 := params ++ [Expression.identifier il iv]
                match t2 with
                | [] => none
                | c2 :: t3 =>
                    if c2.type == CLOSED_PAREN then parse_function_body fuel line_num params2 t3
                    else if c2.type == COMMA then parse_function_params fuel line_num params2 t3
                    else none
            | _ => none

termination_by structural fuel => fuel

/-- The tail of `parse_function`: expect `:`, then the body expression. -/
def parse_function_body : Nat → Nat → List Expression → List Tok → Option (Expression × List Tok)
  | 0, _, _, _ => none
  | fuel + 1, line_num, params, toks =>
      match toks with
      | [] => none
      | c :: t1 =>
          if c.type == COLON then do
            let (body, t2) ← expression fuel LOWEST t1
            some (.function line_num params body, t2)
          else none

termination_by structural fuel => fuel

/-- Method `parse_when`: a colon right after `when` selects the if/else form with
subject `Boolean(line, True)`; otherwise the switch form parses a subject
expression first. -/
def parse_when : Nat → List Tok → Option (Expression × List Tok)
  | 0, _ => none
  | fuel + 1, toks =>
      match toks with
      | [] => none
      | w :: t1 =>
          match t1 with
          | [] => none
          | c1 :: _ =>
              if c1.type != COLON then do
                let (switch_expression, t2) ← expression fuel LOWEST t1
                parse_when_colon fuel w.line_num true switch_expression t2
              else
                parse_when_colon fuel w.line_num false (.boolean w.line_num true) t1

termination_by structural fuel => fuel

/-- Expect the `:` after the (possibly defaulted) when-subject. -/
def parse_when_colon : Nat → Nat → Bool → Expression → List Tok → Option (Expression × List Tok)
  | 0, _, _, _, _ => none
  | fuel + 1, line_num, is_switch, switch_expression, toks =>
      match toks with
      | [] => none
      | c :: t1 =>
          if c.type == COLON then
            parse_when_cases fuel line_num is_switch switch_expression [] t1
          else none

termination_by structural fuel => fuel

/-- The case-collecting `while True` loop of `parse_when`: in switch form
each case starts with `is`; a case is `cmp : ret`; the loop ends when the
current token is `else`. -/
def parse_when_cases : Nat → Nat → Bool → Expression → List (Expression × Expression) →
    List Tok → Option (Expression × List Tok)
  | 0, _, _, _, _, _ => none
  | fuel + 1, line_num, is_switch, switch_expression, acc, toks => do
      let t1 ← (if is_switch then
                  match toks with
                  | c :: t => if c.type == IS then some t else none
                  | [] => none
                else some toks)
      let (comparison_expression, t2) ← expression fuel LOWEST t1
      match t2 with
      | [] => none
      | c2 :: t3 =>
          if c2.type == COLON then do
            let (return_expression, t4) ← expression fuel LOWEST t3
            let acc2 := acc ++ [(comparison_expression, return_expression)]
            match t4 with
            | [] => none
            | c4 :: _ =>
                if c4.type == ELSE then
                  parse_when_else fuel line_num switch_expression acc2 t4
                else
                  parse_when_cases fuel line_num is_switch switch_expression acc2 t4
          else none

termination_by structural fuel => fuel

/-- The tail of `parse_when`: `else : else_expr`; the guard of the final
pair is a copy of the subject re-stamped with the `else` line. -/
def parse_when_else : Nat → Nat → Expression → List (Expression × Expression) →
    List Tok → Option (Expression × List Tok)
  | 0, _, _, _, _ => none
  | fuel + 1, line_num, switch_expression, acc, toks =>
      match toks with
      | [] => none
      | e :: t1 =>
          if e.type == ELSE then
            match t1 with
            | [] => none
            | c :: t2 =>
                if c.type == COLON then do
                  let (else_return_expression, t3) ← expression fuel LOWEST t2
                  some (.when line_num switch_expression
                          (acc ++ [(setLine e.line_num switch_expression,
                                    else_return_expression)]), t3)
                else none
          else none

termination_by structural fuel => fuel

/-- Method `parse_statements(end_type)`: expressions each followed by a statement
terminator, until the end token type. -/
def parse_statements : Nat → String → List Tok → Option (List Expression × List Tok)
  | 0, _, _ => none
  | fuel + 1, end_type, toks =>
      match toks with
      | [] => none
      | c :: _ =>
          if c.type == end_type then some ([], toks)
          else do
            let (e, t1) ← expression fuel LOWEST toks
            match t1 with
            | [] => none
            | s :: t2 =>
                if s.type == SEMICOLON then do
                  let (rest, t3) ← parse_statements fuel end_type t2
                  some (e :: rest, t3)
                else none


termination_by structural fuel => fuel
end

/-- Method `parse`: `parse_statements(EOF)`, returning the statement list. -/
def parse (fuel : Nat) (toks : List Tok) : Option (List Expression) :=
  (parse_statements fuel EOF toks).map Prod.fst

end Parser

end Boomerang

namespace Boomerang

/-! ## Environment (interpreter/evaluator/_environment.py)

Modelled from the spec: _environment.py is not among the sources.  Per the
spec, an Environment is a chain of scopes, each owning a mapping from
variable name to value node, with a non-owning parent reference; `set_var`
binds in the current scope, `get_var` reads the current scope only (the
evaluator itself walks the parent chain). -/

inductive Environment where
  | mk (vars : List (String × Expression)) (parent_env : Option Environment)

/- The scope mapping is named `variables` in the source; `vars` here because
that word is reserved in Lean. -/

/-- Modelled from the spec: read a name in this scope only. -/
def Environment.get_var : Environment → String → Option Expression
  | .mk vars _, name => (vars.find? (fun p => p.1 == name)).map Prod.snd

/-- Modelled from the spec: bind a name in this scope (overwriting an
existing binding of the same name). -/
def Environment.set_var : Environment → String → Expression → Environment
  | .mk vars parent_env, name, value =>
      .mk (if vars.any (fun p => p.1 == name) then
             vars.map (fun p => if p.1 == name then (name, value) else p)
           else
             vars ++ [(name, value)]) parent_env

/-! ## Evaluator (interpreter/evaluator/evaluator.py)

This evaluator iteration dispatches on the node kinds BinaryExpression,
UnaryExpression, Assignment, Identifier, Number, String and Boolean; any
other node kind raises a plain (interpreter-internal) exception, which is
distinct from a LanguageRuntimeException and is NOT converted into an Error
value by `evaluate`.  The two exception families are the two error
constructors below.

The arithmetic dunder methods it calls (`left + right`, ...) live in the
missing module interpreter/_parser/ast_objects.py; they are modelled by the
capability methods of the final ast_objects.py above, which is what the
spec describes (Number arithmetic, String concatenation, type errors for
mixed operand types, the dedicated divide-by-zero error).

The Python interpreter mutates `self.env`; the embedding threads the
environment through evaluation and returns it alongside each value. -/

namespace Evaluator

inductive EvalErr where
  | lang (err : LangError)
  | internal (msg : String)

/-- A capability-method result, re-raised inside the evaluator. -/
def liftCap (env : Environment) :
    Except LangError Expression → Except EvalErr (Expression × Environment)
  | .ok v => .ok (v, env)
  | .error e => .error (.lang e)

/-- Method `evaluate_identifier`: walk the scope chain; on a hit, re-stamp the
stored value's line to the reference site and return it; on a miss at the
root, an undefined-variable language error.  (The Python line_num mutation
also touches the stored object, but every later lookup re-stamps again, so
only the returned value is modelled.) -/
def evaluate_identifier (line_num : Nat) (name : String) :
    Environment → Except EvalErr Expression
  | .mk vars parent_env =>
      match (Environment.mk vars parent_env).get_var name with
      | some variable_value => .ok (setLine line_num variable_value)
      | none =>
          match parent_env with
          | some p => evaluate_identifier line_num name p
          | none => .error (.lang (language_error line_num ("undefined variable: " ++ name)))

/-- Method `evaluate_expression`: dispatch on the node kind. -/
def evaluate_expression (env : Environment) :
    Expression → Except EvalErr (Expression × Environment)
  | .binaryExpression _ left op right =>
      match evaluate_expression env left with
      | .error e => .error e
      | .ok (l, env1) =>
          match evaluate_expression env1 right with
          | .error e => .error e
          | .ok (r, env2) =>
              if op.type == PLUS then liftCap env2 (Expression.add l r)
              else if op.type == MINUS then liftCap env2 (Expression.sub l r)
              else if op.type == MULTIPLY then liftCap env2 (Expression.mul l r)
              else if op.type == DIVIDE then liftCap env2 (Expression.div l r)
              else .error (.lang (language_error op.line_num
                  ("Invalid binary operator " ++ op.value)))
  | .unaryExpression _ op operand =>
      match evaluate_expression env operand with
      | .error e => .error e
      | .ok (r, env1) =>
          if op.type == PLUS then
            match r with
            | .number l v => .ok (.number l |v|, env1)
            | _ => .error (.internal ("Invalid unary operator: " ++ op.type))
          else if op.type == MINUS then
            match r with
            | .number l v => .ok (.number l (-v), env1)
            | _ => .error (.internal ("Invalid unary operator: " ++ op.type))
          else .error (.internal ("Invalid unary operator: " ++ op.type))
  | .assignment _ var_name value =>
      match evaluate_expression env value with
      | .error e => .error e
      | .ok (var_value, env1) => .ok (var_value, env1.set_var var_name var_value)
  | .identifier line_num value =>
      match evaluate_identifier line_num value env with
      | .error e => .error e
      | .ok v => .ok (v, env)
  | .number l v => .ok (.number l v, env)
  | .str l v => .ok (.str l v, env)
  | .boolean l v => .ok (.boolean l v, env)
  | e => .error (.internal ("Unsupported type: " ++ typeName e))

/-- Method `evaluate_statements`: evaluate each statement in order, deep-copying
each result into the output list (values are immutable here, so the deep
copy is the snapshot of the value itself). -/
def evaluate_statements : List Expression → Environment →
    Except EvalErr (List Expression × Environment)
  | [], env => .ok ([], env)
  | expression :: rest, env =>
      match evaluate_expression env expression with
      | .error e => .error e
      | .ok (evaluated_expression, env1) =>
          match evaluate_statements rest env1 with
          | .error e => .error e
          | .ok (evaluated_expressions, env2) =>
              .ok (evaluated_expression :: evaluated_expressions, env2)

/-- Method `evaluate`: the outermost boundary; a LanguageRuntimeException becomes
the single-element list `[Error(e.line_num, str(e))]`, while an internal
exception propagates. -/
def evaluate (ast : List Expression) (env : Environment) :
    Except String (List Expression) :=
  match evaluate_statements ast env with
  | .ok (vs, _) => .ok vs
  | .error (.lang e) => .ok [.error e.line_num e.message]
  | .error (.internal m) => .error m

end Evaluator

end Boomerang

namespace Boomerang

/-! ## Concrete inputs and the claim-worded indexing function -/

/-- The token stream of `1 + 2 * 2;` (one line). -/
def tokens_one_plus_two_times_two : List Tok :=
  [⟨"1", NUMBER, 1⟩, ⟨"+", PLUS, 1⟩, ⟨"2", NUMBER, 1⟩, ⟨"*", MULTIPLY, 1⟩,
   ⟨"2", NUMBER, 1⟩, ⟨";", SEMICOLON, 1⟩, ⟨"", EOF, 1⟩]

/-- The token stream of `()` on line 1 followed by `;` on line 2
(source text `()` newline `;`). -/
def empty_list_tokens : List Tok :=
  [⟨"(", OPEN_PAREN, 1⟩, ⟨")", CLOSED_PAREN, 1⟩, ⟨";", SEMICOLON, 2⟩, ⟨"", EOF, 2⟩]

/-- The statement `x = (1 + 2) * 2` on line 1. -/
def stmt_assign_x : Expression :=
  .assignment 1 "x" (.binaryExpression 1
    (.binaryExpression 1 (.number 1 1) ⟨"+", PLUS, 1⟩ (.number 1 2))
    ⟨"*", MULTIPLY, 1⟩ (.number 1 2))

/-- The statement `x` on line 1. -/
def stmt_ref_x : Expression := .identifier 1 "x"

/-- The reassignment `x = 10` on line 1. -/
def stmt_reassign_x : Expression := .assignment 1 "x" (.number 1 10)

/-- Claim C8's wording of `List.at`: Python-style indexing, counting from
the end for a negative index, defined iff `-len(values) <= i < len(values)`.
This definition follows the claim, to be compared with the source-derived
`Expression.at'`. -/
def specPyIndex (vs : List Expression) (q : ℚ) : Option Expression :=
  if -(vs.length : ℚ) ≤ q ∧ q < (vs.length : ℚ) then
    (if truncInt q < 0 then vs.get? ((vs.length : ℤ) + truncInt q).toNat
     else vs.get? (truncInt q).toNat)
  else none

/-- The non-integer rational 1/2, given in lowest terms. -/
def half : ℚ := ⟨1, 2, by norm_num, Nat.coprime_one_left 2⟩

/-! ## Helper lemmas -/

/-- Evaluating a single erroneous statement fails the whole run. -/
theorem evaluate_statements_cons_error
    (bad : Expression) (rest : List Expression) (env : Environment)
    (e : Evaluator.EvalErr) (h : Evaluator.evaluate_expression env bad = .error e) :
    Evaluator.evaluate_statements (bad :: rest) env = .error e := by
  rw [show Evaluator.evaluate_statements (bad :: rest) env
        = (match Evaluator.evaluate_expression env bad with
           | Except.error e => Except.error e
           | Except.ok (v, env1) =>
               match Evaluator.evaluate_statements rest env1 with
               | Except.error e => Except.error e
               | Except.ok (rs, env2) => Except.ok (v :: rs, env2)) from rfl, h]

/-- A successful prefix run composes with whatever the suffix run yields. -/
theorem evaluate_statements_append_ok :
    ∀ (xs ys : List Expression) (env env1 : Environment) (rs1 : List Expression),
      Evaluator.evaluate_statements xs env = .ok (rs1, env1) →
      Evaluator.evaluate_statements (xs ++ ys) env =
        (match Evaluator.evaluate_statements ys env1 with
         | .ok (rs2, env2) => .ok (rs1 ++ rs2, env2)
         | .error e => .error e) := by
  intro xs
  induction xs with
  | nil =>
      intro ys env env1 rs1 h
      have h' : (Except.ok ([], env) : Except Evaluator.EvalErr (List Expression × Environment))
          = .ok (rs1, env1) := h
      cases h'
      show Evaluator.evaluate_statements ys env = _
      cases Evaluator.evaluate_statements ys env with
      | ok p => cases p; rfl
      | error e => rfl
  | cons x xs ih =>
      intro ys env env1 rs1 h
      have h' : (match Evaluator.evaluate_expression env x with
                 | Except.error e => Except.error e
                 | Except.ok (v, envx) =>
                     match Evaluator.evaluate_statements xs envx with
                     | Except.error e => Except.error e
                     | Except.ok (rs2, env2) => Except.ok (v :: rs2, env2)) = .ok (rs1, env1) := h
      cases hx : Evaluator.evaluate_expression env x with
      | error e =>
          rw [hx] at h'
          exact Except.noConfusion h'
      | ok p =>
          obtain ⟨v, envx⟩ := p
          rw [hx] at h'
          have h2 : (match Evaluator.evaluate_statements xs envx with
                     | Except.error e => Except.error e
                     | Except.ok (rs2, env2) => Except.ok (v :: rs2, env2))
              = .ok (rs1, env1) := h'
          cases hs : Evaluator.evaluate_statements xs envx with
          | error e =>
              rw [hs] at h2
              exact Except.noConfusion h2
          | ok q =>
              obtain ⟨rs2, env2⟩ := q
              rw [hs] at h2
              have h3 : (Except.ok (v :: rs2, env2) :
                  Except Evaluator.EvalErr (List Expression × Environment))
                  = .ok (rs1, env1) := h2
              injection h3 with h4
              injection h4 with h5 h6
              subst h5
              subst h6
              rw [show Evaluator.evaluate_statements ((x :: xs) ++ ys) env
                    = (match Evaluator.evaluate_expression env x with
                       | Except.error e => Except.error e
                       | Except.ok (v, envx) =>
                           match Evaluator.evaluate_statements (xs ++ ys) envx with
                           | Except.error e => Except.error e
                           | Except.ok (rs, env2) => Except.ok (v :: rs, env2)) from rfl, hx]
              show (match Evaluator.evaluate_statements (xs ++ ys) envx with
                    | Except.error e => Except.error e
                    | Except.ok (rs, env2) => Except.ok (v :: rs, env2)) = _
              rw [ih ys envx env2 rs2 hs]
              cases Evaluator.evaluate_statements ys env2 with
              | error e => rfl
              | ok r => obtain ⟨rs3, env3⟩ := r; rfl

/-- Decomposing a successful run over an appended statement list. -/
theorem evaluate_statements_append_inv :
    ∀ (xs ys : List Expression) (env env2 : Environment) (rs : List Expression),
      Evaluator.evaluate_statements (xs ++ ys) env = .ok (rs, env2) →
      ∃ rs1 env1 rs2, Evaluator.evaluate_statements xs env = .ok (rs1, env1)
        ∧ Evaluator.evaluate_statements ys env1 = .ok (rs2, env2)
        ∧ rs = rs1 ++ rs2 := by
  intro xs
  induction xs with
  | nil =>
      intro ys env env2 rs h
      exact ⟨[], env, rs, rfl, h, rfl⟩
  | cons x xs ih =>
      intro ys env env2 rs h
      have h' : (match Evaluator.evaluate_expression env x with
                 | Except.error e => Except.error e
                 | Except.ok (v, envx) =>
                     match Evaluator.evaluate_statements (xs ++ ys) envx with
                     | Except.error e => Except.error e
                     | Except.ok (rsx, envy) => Except.ok (v :: rsx, envy)) = .ok (rs, env2) := h
      cases hx : Evaluator.evaluate_expression env x with
      | error e =>
          rw [hx] at h'
          exact Except.noConfusion h'
      | ok p =>
          obtain ⟨v, envx⟩ := p
          rw [hx] at h'
          have h2 : (match Evaluator.evaluate_statements (xs ++ ys) envx with
                     | Except.error e => Except.error e
                     | Except.ok (rsx, envy) => Except.ok (v :: rsx, envy))
              = .ok (rs, env2) := h'
          cases hs : Evaluator.evaluate_statements (xs ++ ys) envx with
          | error e =>
              rw [hs] at h2
              exact Except.noConfusion h2
          | ok q =>
              obtain ⟨rsx, envy⟩ := q
              rw [hs] at h2
              have h3 : (Except.ok (v :: rsx, envy) :
                  Except Evaluator.EvalErr (List Expression × Environment))
                  = .ok (rs, env2) := h2
              injection h3 with h4
              injection h4 with h5 h6
              subst h5
              rw [h6] at hs
              obtain ⟨rs1, env1, rs2, hxs, hys, heq⟩ := ih ys envx env2 rsx hs
              refine ⟨v :: rs1, env1, rs2, ?_, hys, by simp [heq]⟩
              rw [show Evaluator.evaluate_statements (x :: xs) env
                    = (match Evaluator.evaluate_expression env x with
                       | Except.error e => Except.error e
                       | Except.ok (v, envx) =>
                           match Evaluator.evaluate_statements xs envx with
                           | Except.error e => Except.error e
                           | Except.ok (rs2, env2) => Except.ok (v :: rs2, env2)) from rfl,
                  hx]
              show (match Evaluator.evaluate_statements xs envx with
                    | Except.error e => Except.error e
                    | Except.ok (rs2, env2) => Except.ok (v :: rs2, env2)) = _
              rw [hxs]

/-- A successful `evaluate_statements` run yields one result per statement. -/
theorem evaluate_statements_length :
    ∀ (stmts : List Expression) (env env1 : Environment) (rs : List Expression),
      Evaluator.evaluate_statements stmts env = .ok (rs, env1) → rs.length = stmts.length := by
  intro stmts
  induction stmts with
  | nil =>
      intro env env1 rs h
      have h' : (Except.ok ([], env) : Except Evaluator.EvalErr (List Expression × Environment))
          = .ok (rs, env1) := h
      cases h'
      rfl
  | cons x xs ih =>
      intro env env1 rs h
      have h' : (match Evaluator.evaluate_expression env x with
                 | Except.error e => Except.error e
                 | Except.ok (v, envx) =>
                     match Evaluator.evaluate_statements xs envx with
                     | Except.error e => Except.error e
                     | Except.ok (rs2, env2) => Except.ok (v :: rs2, env2)) = .ok (rs, env1) := h
      cases hx : Evaluator.evaluate_expression env x with
      | error e =>
          rw [hx] at h'
          exact Except.noConfusion h'
      | ok p =>
          obtain ⟨v, envx⟩ := p
          rw [hx] at h'
          have h2 : (match Evaluator.evaluate_statements xs envx with
                     | Except.error e => Except.error e
                     | Except.ok (rs2, env2) => Except.ok (v :: rs2, env2)) = .ok (rs, env1) := h'
          cases hs : Evaluator.evaluate_statements xs envx with
          | error e =>
              rw [hs] at h2
              exact Except.noConfusion h2
          | ok q =>
              obtain ⟨rs2, env2⟩ := q
              rw [hs] at h2
              have h3 : (Except.ok (v :: rs2, env2) :
                  Except Evaluator.EvalErr (List Expression × Environment)) = .ok (rs, env1) := h2
              injection h3 with h4
              injection h4 with h5 h6
              subst h5
              simp [ih envx env2 rs2 hs]

/-- Iterated filtering over the removal list equals one filter that keeps
the values matching none of the removed values. -/
theorem foldl_filter_all (ws : List Expression) :
    ∀ vs : List Expression,
      ws.foldl (fun new_values value_to_remove =>
          new_values.filter (fun v => !(eqb v value_to_remove))) vs
        = vs.filter (fun v => ws.all (fun w => !(eqb v w))) := by
  induction ws with
  | nil => intro vs; simp
  | cons w ws ih =>
      intro vs
      simp only [List.foldl_cons, ih, List.filter_filter]
      refine List.filter_congr ?_
      intro x _
      simp [Bool.and_comm]

/-- Method `Number.fac` on an integer-valued Number, in terms of the integer. -/
theorem fac_intCast (l : Nat) (m : ℤ) :
    Expression.fac (.number l ((m : ℚ))) =
      (if m == 0 || m == 1 then .ok (.number l 1)
       else .ok (.number l (reduce_mul (rangeFrom2
                 (if m < 0 then (m.natAbs : ℤ) + 1 else m))))) := by
  have hwhole : is_whole_number ((m : ℚ)) = true := by
    simp [is_whole_number]
  have htrunc : truncInt ((m : ℚ)) = m := by
    simp [truncInt, Int.tdiv_one]
  rw [show Expression.fac (.number l ((m : ℚ)))
        = (if !(is_whole_number ((m : ℚ))) then
             .error (language_error l "expression for factorial must be whole number")
           else if truncInt ((m : ℚ)) == 0 || truncInt ((m : ℚ)) == 1 then
             .ok (.number l 1)
           else
             .ok (.number l (reduce_mul (rangeFrom2
               (if truncInt ((m : ℚ)) < 0 then ((truncInt ((m : ℚ))).natAbs : ℤ) + 1
                else truncInt ((m : ℚ))))))) from rfl,
      hwhole, htrunc]
  simp

/-- Values of different concrete classes are never value-equal: every
`__eq__` override starts with an isinstance check. -/
theorem eqb_false_of_typeName_ne :
    ∀ a b : Expression, typeName a ≠ typeName b → eqb a b = false := by
  intro a b h
  cases a <;> cases b <;> first
    | (exact absurd rfl h)
    | simp [eqb]

end Boomerang

namespace Boomerang

/-! ## Claims -/

/-- C1 counterexample: `List.ptr` applied to another List does NOT
concatenate the right list's elements onto the left list — it appends the
whole List operand as a single element: `(1).ptr((2))` yields `(1, (2))`,
not `(1, 2)` as the claim states. -/
theorem claim_C1_counterexample :
    Expression.ptr (.list 1 [.number 1 1]) (.list 1 [.number 1 2])
      = .ok (.list 1 [.number 1 1, .list 1 [.number 1 2]])
    ∧ Expression.ptr (.list 1 [.number 1 1]) (.list 1 [.number 1 2])
      ≠ .ok (.list 1 [.number 1 1, .number 1 2]) := by
  refine ⟨rfl, ?_⟩
  intro h
  rw [show Expression.ptr (.list 1 [.number 1 1]) (.list 1 [.number 1 2])
        = .ok (.list 1 [.number 1 1, .list 1 [.number 1 2]]) from rfl] at h
  simp at h

/-- C1 amended: for every List value L, applying the pointer/send capability
with any operand — scalar or List alike — returns a NEW List consisting of
L's elements with the operand appended as one element; the result is a
different list value from L (one element longer), not L itself. -/
theorem claim_C1_amended :
    ∀ (l : Nat) (vs : List Expression) (other : Expression),
      Expression.ptr (.list l vs) other = .ok (.list l (vs ++ [other]))
      ∧ (Expression.list l (vs ++ [other])) ≠ .list l vs
      ∧ (vs ++ [other]).length = vs.length + 1 := by
  intro l vs other
  refine ⟨rfl, ?_, by simp⟩
  intro h
  injection h with h1 h2
  have := congrArg List.length h2
  simp at this

/-- C2: parsing the source `()` (open and closed paren both on line 1)
followed by a statement terminator on line 2 produces a List node stamped
with line 2 — the line of the token after the closing paren — not line 1
where the construct was parsed, because parse_grouped_expression advances
past the `)` before reading `self.current.line_num`. -/
theorem claim_C2_bug_eval :
    Parser.parse 32 empty_list_tokens = some [.list 2 []]
    ∧ (empty_list_tokens.map Tok.line_num).take 2 = [1, 1]
    ∧ (Expression.list 2 [] : Expression) ≠ .list 1 [] := by
  refine ⟨rfl, rfl, ?_⟩
  intro h
  injection h with h1 h2
  cases h1

/-- C5: `1 + 2 * 2` parses to BinaryExpression(+, 1, BinaryExpression(*, 2, 2)),
never to BinaryExpression(*, BinaryExpression(+, 1, 2), 2), and PRODUCT sits
strictly above SUM in the precedence order. -/
theorem claim_C5 :
    Parser.parse 32 tokens_one_plus_two_times_two
      = some [.binaryExpression 1 (.number 1 1) ⟨"+", PLUS, 1⟩
                (.binaryExpression 1 (.number 1 2) ⟨"*", MULTIPLY, 1⟩ (.number 1 2))]
    ∧ Parser.parse 32 tokens_one_plus_two_times_two
      ≠ some [.binaryExpression 1
                (.binaryExpression 1 (.number 1 1) ⟨"+", PLUS, 1⟩ (.number 1 2))
                ⟨"*", MULTIPLY, 1⟩ (.number 1 2)]
    ∧ Parser.get_precedence_level SUM < Parser.get_precedence_level PRODUCT := by
  have h : Parser.parse 32 tokens_one_plus_two_times_two
      = some [.binaryExpression 1 (.number 1 (Parser.strToRat "1")) ⟨"+", PLUS, 1⟩
                (.binaryExpression 1 (.number 1 (Parser.strToRat "2")) ⟨"*", MULTIPLY, 1⟩
                  (.number 1 (Parser.strToRat "2")))] := rfl
  have e1 : Parser.strToRat "1" = ((1 : ℕ) : ℚ) := rfl
  have e2 : Parser.strToRat "2" = ((2 : ℕ) : ℚ) := rfl
  have h' : Parser.parse 32 tokens_one_plus_two_times_two
      = some [.binaryExpression 1 (.number 1 1) ⟨"+", PLUS, 1⟩
                (.binaryExpression 1 (.number 1 2) ⟨"*", MULTIPLY, 1⟩ (.number 1 2))] := by
    rw [h, e1, e2]
    norm_num
  refine ⟨h', ?_, by decide⟩
  rw [h']
  intro hbad
  injection hbad with hb
  injection hb with hb1 hb2
  injection hb1 with _ hleft
  cases hleft

/-- C9: `List.sub` keeps exactly the left list's values that are value-equal
to no element of the right list, in order, removing every occurrence; in
particular `(1, 2, 3) - (2)` is `(1, 3)`. -/
theorem claim_C9 :
    (∀ (l l2 : Nat) (vs ws : List Expression),
      Expression.sub (.list l vs) (.list l2 ws)
        = .ok (.list l (vs.filter (fun v => ws.all (fun w => !(eqb v w))))))
    ∧ Expression.sub (.list 1 [.number 1 1, .number 1 2, .number 1 3])
        (.list 1 [.number 1 2])
      = .ok (.list 1 [.number 1 1, .number 1 3]) := by
  constructor
  · intro l l2 vs ws
    rw [show Expression.sub (.list l vs) (.list l2 ws)
          = .ok (.list l (ws.foldl (fun new_values value_to_remove =>
              new_values.filter (fun v => !(eqb v value_to_remove))) vs)) from rfl,
        foldl_filter_all]
  · rfl

/-- C10: the eq/ne capabilities are total — they always return a Boolean
carrying the left operand's line, with ne the negation of eq — and whenever
the two operands' concrete classes differ, eq yields false and ne yields
true (cross-type comparison is inequality, not a type error). -/
theorem claim_C10 :
    ∀ a b : Expression,
      (∃ bv, Expression.eq a b = .boolean a.line_num bv
           ∧ Expression.ne a b = .boolean a.line_num (!bv))
      ∧ (typeName a ≠ typeName b →
          Expression.eq a b = .boolean a.line_num false
          ∧ Expression.ne a b = .boolean a.line_num true) := by
  intro a b
  refine ⟨⟨eqb a b, rfl, rfl⟩, fun h => ?_⟩
  rw [Expression.eq, Expression.ne, eqb_false_of_typeName_ne a b h]
  exact ⟨rfl, rfl⟩

/-- C10 witness: a Number and a Boolean have different concrete types, and
comparing them with eq/ne yields false/true Booleans rather than an error. -/
theorem claim_C10_witness :
    typeName (.number 1 1) ≠ typeName (.boolean 1 true)
    ∧ Expression.eq (.number 1 1) (.boolean 1 true) = .boolean 1 false
    ∧ Expression.ne (.number 1 1) (.boolean 1 true) = .boolean 1 true := by
  have hne : typeName (.number 1 1) ≠ typeName (.boolean 1 true) := by decide
  have h := (claim_C10 (.number 1 1) (.boolean 1 true)).2 hne
  exact ⟨hne, h.1, h.2⟩

/-- C3: if the statements before some failing statement evaluate
successfully and that statement raises a language-runtime error, then
`evaluate` returns exactly `[Error(line, message)]` for that error — the
result does not depend on the statements after the failing one, which are
never evaluated; and when every statement succeeds, `evaluate` returns the
per-statement results in program order, one per statement. -/
theorem claim_C3 :
    (∀ (pre : List Expression) (bad : Expression) (rest : List Expression)
       (env env1 : Environment) (rs : List Expression) (e : LangError),
        Evaluator.evaluate_statements pre env = .ok (rs, env1) →
        Evaluator.evaluate_expression env1 bad = .error (.lang e) →
        Evaluator.evaluate (pre ++ bad :: rest) env = .ok [.error e.line_num e.message])
    ∧ (∀ (stmts : List Expression) (env env1 : Environment) (rs : List Expression),
        Evaluator.evaluate_statements stmts env = .ok (rs, env1) →
        Evaluator.evaluate stmts env = .ok rs ∧ rs.length = stmts.length) := by
  constructor
  · intro pre bad rest env env1 rs e h1 h2
    have hbad : Evaluator.evaluate_statements (bad :: rest) env1 = .error (.lang e) :=
      evaluate_statements_cons_error bad rest env1 _ h2
    have hall : Evaluator.evaluate_statements (pre ++ bad :: rest) env = .error (.lang e) := by
      rw [evaluate_statements_append_ok pre (bad :: rest) env env1 rs h1, hbad]
    show (match Evaluator.evaluate_statements (pre ++ bad :: rest) env with
          | Except.ok (vs, _) => Except.ok vs
          | Except.error (.lang e) => Except.ok [Expression.error e.line_num e.message]
          | Except.error (.internal m) => Except.error m) = _
    rw [hall]
  · intro stmts env env1 rs h
    refine ⟨?_, evaluate_statements_length stmts env env1 rs h⟩
    show (match Evaluator.evaluate_statements stmts env with
          | Except.ok (vs, _) => Except.ok vs
          | Except.error (.lang e) => Except.ok [Expression.error e.line_num e.message]
          | Except.error (.internal m) => Except.error m) = _
    rw [h]

/-- C3 witness: `4 / 0` as the first statement makes the whole run yield
the single divide-by-zero Error node, with a following statement present
but never evaluated; and a one-statement successful program yields exactly
its one result. -/
theorem claim_C3_witness :
    (Evaluator.evaluate_statements [] (.mk [] none) = .ok ([], Environment.mk [] none)
     ∧ Evaluator.evaluate_expression (.mk [] none)
         (.binaryExpression 1 (.number 1 4) ⟨"/", DIVIDE, 1⟩ (.number 1 0))
         = .error (.lang (language_error 1 "division by zero"))
     ∧ Evaluator.evaluate
         ([] ++ (Expression.binaryExpression 1 (.number 1 4) ⟨"/", DIVIDE, 1⟩ (.number 1 0))
            :: [Expression.number 1 7]) (.mk [] none)
         = .ok [.error 1 "division by zero"])
    ∧ (Evaluator.evaluate_statements [Expression.number 1 5] (.mk [] none)
         = .ok ([.number 1 5], Environment.mk [] none)
       ∧ Evaluator.evaluate [Expression.number 1 5] (.mk [] none) = .ok [.number 1 5]
       ∧ ([Expression.number 1 5] : List Expression).length = [Expression.number 1 5].length) := by
  refine ⟨⟨rfl, rfl, ?_⟩, ⟨rfl, ?_, ?_⟩⟩
  · exact claim_C3.1 [] _ [.number 1 7] (.mk [] none) (.mk [] none) []
      (language_error 1 "division by zero") rfl rfl
  · exact (claim_C3.2 [Expression.number 1 5] (.mk [] none) (.mk [] none) [.number 1 5] rfl).1
  · exact (claim_C3.2 [Expression.number 1 5] (.mk [] none) (.mk [] none) [.number 1 5] rfl).2

/-- C4: the recorded history is a per-statement snapshot — a successful run
of `stmts ++ rest` records for the first `stmts.length` statements exactly
what running `stmts` alone records, so no later statement alters an earlier
entry; in particular after `x = (1+2)*2; x`, whatever statements follow, the
first recorded result is the Number 6. -/
theorem claim_C4 :
    (∀ (stmts rest : List Expression) (env env2 : Environment) (rs : List Expression),
        Evaluator.evaluate_statements (stmts ++ rest) env = .ok (rs, env2) →
        ∃ env1, Evaluator.evaluate_statements stmts env = .ok (rs.take stmts.length, env1))
    ∧ (∀ (rest : List Expression) (env : Environment) (rs : List Expression)
         (env2 : Environment),
        Evaluator.evaluate_statements (stmt_assign_x :: stmt_ref_x :: rest) env
          = .ok (rs, env2) →
        rs.head? = some (.number 1 6)) := by
  constructor
  · intro stmts rest env env2 rs h
    obtain ⟨rs1, env1, rs2, h1, h2, heq⟩ :=
      evaluate_statements_append_inv stmts rest env env2 rs h
    refine ⟨env1, ?_⟩
    have hlen : rs1.length = stmts.length := evaluate_statements_length stmts env env1 rs1 h1
    rw [heq, ← hlen, List.take_left]
    exact h1
  · intro rest env rs env2 h
    have h' : (match Evaluator.evaluate_expression env stmt_assign_x with
               | Except.error e => Except.error e
               | Except.ok (v, env1) =>
                   match Evaluator.evaluate_statements (stmt_ref_x :: rest) env1 with
                   | Except.error e => Except.error e
                   | Except.ok (rs2, env3) => Except.ok (v :: rs2, env3))
        = .ok (rs, env2) := h
    have hx : Evaluator.evaluate_expression env stmt_assign_x
        = .ok (.number 1 (((1 : ℚ) + 2) * 2),
               env.set_var "x" (.number 1 (((1 : ℚ) + 2) * 2))) := rfl
    rw [hx] at h'
    have h2 : (match Evaluator.evaluate_statements (stmt_ref_x :: rest)
                  (env.set_var "x" (.number 1 (((1 : ℚ) + 2) * 2))) with
               | Except.error e => Except.error e
               | Except.ok (rs2, env3) =>
                   Except.ok ((Expression.number 1 (((1 : ℚ) + 2) * 2)) :: rs2, env3))
        = .ok (rs, env2) := h'
    cases hs : Evaluator.evaluate_statements (stmt_ref_x :: rest)
        (env.set_var "x" (.number 1 (((1 : ℚ) + 2) * 2))) with
    | error e =>
        rw [hs] at h2
        exact Except.noConfusion h2
    | ok q =>
        obtain ⟨rs2, env3⟩ := q
        rw [hs] at h2
        have h3 : (Except.ok ((Expression.number 1 (((1 : ℚ) + 2) * 2)) :: rs2, env3) :
            Except Evaluator.EvalErr (List Expression × Environment)) = .ok (rs, env2) := h2
        injection h3 with h4
        injection h4 with h5 h6
        rw [← h5]
        norm_num

/-- C4 witness: running `x = (1+2)*2; x`, alone and followed by the
reassignment `x = 10`, keeps the first recorded result at 6. -/
theorem claim_C4_witness :
    (Evaluator.evaluate_statements ([stmt_assign_x] ++ [stmt_ref_x]) (.mk [] none)
       = .ok ([.number 1 (((1 : ℚ) + 2) * 2), .number 1 (((1 : ℚ) + 2) * 2)],
              Environment.mk [("x", .number 1 (((1 : ℚ) + 2) * 2))] none)
     ∧ ∃ env1, Evaluator.evaluate_statements [stmt_assign_x] (.mk [] none)
         = .ok (([Expression.number 1 (((1 : ℚ) + 2) * 2),
                  Expression.number 1 (((1 : ℚ) + 2) * 2)]).take [stmt_assign_x].length, env1))
    ∧ (Evaluator.evaluate_statements (stmt_assign_x :: stmt_ref_x :: [stmt_reassign_x])
         (.mk [] none)
         = .ok ([.number 1 (((1 : ℚ) + 2) * 2), .number 1 (((1 : ℚ) + 2) * 2), .number 1 10],
                Environment.mk [("x", .number 1 10)] none)
       ∧ ([Expression.number 1 (((1 : ℚ) + 2) * 2), Expression.number 1 (((1 : ℚ) + 2) * 2),
           Expression.number 1 10] : List Expression).head? = some (.number 1 6)) := by
  refine ⟨⟨rfl, ?_⟩, rfl, ?_⟩
  · exact claim_C4.1 [stmt_assign_x] [stmt_ref_x] (.mk [] none) _ _ rfl
  · exact claim_C4.2 [stmt_reassign_x] (.mk [] none) _ _ rfl

/-- C6: for a whole number n >= 1, factorial of the Number -n equals
factorial of the Number n+1 (the reflection rule (-n)! == (n+1)!), the same
Number value; and factorial of a non-whole Number is the dedicated
language error. -/
theorem claim_C6 :
    (∀ (l1 l2 : Nat) (n : ℕ), 1 ≤ n →
      ∃ p : ℚ, Expression.fac (.number l1 (-(n : ℚ))) = .ok (.number l1 p)
        ∧ Expression.fac (.number l2 ((n : ℚ) + 1)) = .ok (.number l2 p))
    ∧ (∀ (l : Nat) (q : ℚ), is_whole_number q = false →
        Expression.fac (.number l q)
          = .error (language_error l "expression for factorial must be whole number")) := by
  constructor
  · intro l1 l2 n hn
    refine ⟨reduce_mul (rangeFrom2 ((n : ℤ) + 1)), ?_, ?_⟩
    · have hv : (-(n : ℚ)) = (((-(n : ℤ)) : ℤ) : ℚ) := by push_cast; ring
      rw [hv, fac_intCast]
      have hcond : ((-(n : ℤ) == 0) || (-(n : ℤ) == 1)) = false := by
        simp only [Bool.or_eq_false_iff, beq_eq_false_iff_ne, ne_eq]
        omega
      rw [hcond, if_neg (by simp), if_pos (by omega : -(n : ℤ) < 0)]
      have habs : ((-(n : ℤ)).natAbs : ℤ) = (n : ℤ) := by
        simp
      rw [habs]
    · have hv : ((n : ℚ) + 1) = ((((n : ℤ) + 1) : ℤ) : ℚ) := by push_cast; ring
      rw [hv, fac_intCast]
      have hcond : (((n : ℤ) + 1 == 0) || ((n : ℤ) + 1 == 1)) = false := by
        simp only [Bool.or_eq_false_iff, beq_eq_false_iff_ne, ne_eq]
        omega
      rw [hcond, if_neg (by simp), if_neg (by omega : ¬((n : ℤ) + 1 < 0))]
  · intro l q h
    rw [show Expression.fac (.number l q)
          = (if !(is_whole_number q) then
               .error (language_error l "expression for factorial must be whole number")
             else if truncInt q == 0 || truncInt q == 1 then
               .ok (.number l 1)
             else
               .ok (.number l (reduce_mul (rangeFrom2
                 (if truncInt q < 0 then ((truncInt q).natAbs : ℤ) + 1
                  else truncInt q))))) from rfl,
        h]
    rfl

/-- C6 witness: (-2)! and 3! are the same Number value, and 1/2 is
rejected. -/
theorem claim_C6_witness :
    ((1 : ℕ) ≤ 2
     ∧ ∃ p : ℚ, Expression.fac (.number 3 (-((2 : ℕ) : ℚ))) = .ok (.number 3 p)
        ∧ Expression.fac (.number 4 (((2 : ℕ) : ℚ) + 1)) = .ok (.number 4 p))
    ∧ (is_whole_number half = false
       ∧ Expression.fac (.number 5 half)
          = .error (language_error 5 "expression for factorial must be whole number")) := by
  have hh : is_whole_number half = false := rfl
  exact ⟨⟨by norm_num, claim_C6.1 3 4 2 (by norm_num)⟩, ⟨hh, claim_C6.2 5 half hh⟩⟩

/-- C7: for Numbers a and b, div and mod raise the dedicated divide-by-zero
error exactly when b is 0, and otherwise return a/b and the Python float
modulus of a by b. -/
theorem claim_C7 :
    ∀ (l1 l2 : Nat) (a b : ℚ),
      (b = 0 →
        Expression.div (.number l1 a) (.number l2 b) = .error (divide_by_zero_error l1)
        ∧ Expression.mod (.number l1 a) (.number l2 b) = .error (divide_by_zero_error l1))
      ∧ (b ≠ 0 →
        Expression.div (.number l1 a) (.number l2 b) = .ok (.number l1 (a / b))
        ∧ Expression.mod (.number l1 a) (.number l2 b) = .ok (.number l1 (pymod a b))) := by
  intro l1 l2 a b
  constructor
  · intro hb
    subst hb
    constructor
    · rw [show Expression.div (.number l1 a) (.number l2 0)
            = (if (0 : ℚ) == 0 then .error (divide_by_zero_error l1)
               else .ok (.number l1 (a / 0))) from rfl]
      simp
    · rw [show Expression.mod (.number l1 a) (.number l2 0)
            = (if (0 : ℚ) == 0 then .error (divide_by_zero_error l1)
               else .ok (.number l1 (pymod a 0))) from rfl]
      simp
  · intro hb
    have hb' : (b == 0) = false := by simpa using hb
    constructor
    · rw [show Expression.div (.number l1 a) (.number l2 b)
            = (if b == 0 then .error (divide_by_zero_error l1)
               else .ok (.number l1 (a / b))) from rfl, hb']
      rfl
    · rw [show Expression.mod (.number l1 a) (.number l2 b)
            = (if b == 0 then .error (divide_by_zero_error l1)
               else .ok (.number l1 (pymod a b))) from rfl, hb']
      rfl

/-- C7 witness: 4 / 0 and 4 mod 0 are the dedicated divide-by-zero error;
7 / 2 and 7 mod 2 succeed. -/
theorem claim_C7_witness :
    (Expression.div (.number 1 4) (.number 1 0) = .error (divide_by_zero_error 1)
     ∧ Expression.mod (.number 1 4) (.number 1 0) = .error (divide_by_zero_error 1))
    ∧ ((2 : ℚ) ≠ 0
       ∧ Expression.div (.number 1 7) (.number 1 2) = .ok (.number 1 ((7 : ℚ) / 2))
       ∧ Expression.mod (.number 1 7) (.number 1 2) = .ok (.number 1 (pymod 7 2))) := by
  have h2 : (2 : ℚ) ≠ 0 := by norm_num
  exact ⟨(claim_C7 1 1 4 0).1 rfl,
         h2, ((claim_C7 1 1 7 2).2 h2).1, ((claim_C7 1 1 7 2).2 h2).2⟩

/-- C8: under a whole-number index, `List.at` agrees with the claim's
Python-style indexing: it returns the element (counting from the end for a
negative index) exactly when -len(values) <= i < len(values), and raises
the out-of-range language error at the list's line otherwise. -/
theorem claim_C8 :
    ∀ (l l2 : Nat) (vs : List Expression) (q : ℚ), is_whole_number q = true →
      Expression.at' (.list l vs) (.number l2 q) =
        (match specPyIndex vs q with
         | some v => .ok v
         | none => .error (language_error l
             ("list index " ++ numStr q ++ " is out of range"))) := by
  intro l l2 vs q hw
  rw [show Expression.at' (.list l vs) (.number l2 q)
        = (if !(is_whole_number q) then
             .error (language_error l "list index must be a whole number")
           else if -(vs.length : ℚ) ≤ q ∧ q < (vs.length : ℚ) then
             .ok (pyGet vs (truncInt q))
           else
             .error (language_error l ("list index " ++ numStr q ++ " is out of range")))
          from rfl,
      hw]
  simp only [specPyIndex, Bool.not_true, Bool.false_eq_true, if_false]
  by_cases hin : (-(vs.length : ℚ) ≤ q ∧ q < (vs.length : ℚ))
  · rw [if_pos hin, if_pos hin]
    have hden : q.den = 1 := by simpa [is_whole_number] using hw
    have hqnum : ((q.num : ℚ)) = q := by
      have hh := Rat.num_div_den q
      rw [hden] at hh
      simpa using hh
    have htr : truncInt q = q.num := by
      simp [truncInt, hden, Int.tdiv_one]
    have hb1 : -(vs.length : ℤ) ≤ q.num := by
      have hh := hin.1
      rw [← hqnum] at hh
      exact_mod_cast hh
    have hb2 : q.num < (vs.length : ℤ) := by
      have hh := hin.2
      rw [← hqnum] at hh
      exact_mod_cast hh
    rw [htr]
    by_cases hneg : q.num < 0
    · rw [if_pos hneg]
      have hidx : ((vs.length : ℤ) + q.num).toNat < vs.length := by omega
      have hpg : pyGet vs q.num = vs.getD ((vs.length : ℤ) + q.num).toNat (.number 0 0) := by
        unfold pyGet
        rw [if_pos hneg]
      rw [List.get?_eq_get hidx, hpg, List.getD_eq_getElem?_getD,
          List.getElem?_eq_getElem hidx]
      rfl
    · rw [if_neg hneg]
      have hidx : (q.num).toNat < vs.length := by omega
      have hpg : pyGet vs q.num = vs.getD (q.num).toNat (.number 0 0) := by
        unfold pyGet
        rw [if_neg hneg]
      rw [List.get?_eq_get hidx, hpg, List.getD_eq_getElem?_getD,
          List.getElem?_eq_getElem hidx]
      rfl
  · rw [if_neg hin, if_neg hin]

/-- C8 witness: indexing (1, 2, 3) at the whole index -1 yields 3, and
indexing it at 5 yields the out-of-range error. -/
theorem claim_C8_witness :
    (is_whole_number ((-1 : ℤ) : ℚ) = true
     ∧ Expression.at' (.list 1 [.number 1 1, .number 1 2, .number 1 3])
         (.number 1 ((-1 : ℤ) : ℚ)) = .ok (.number 1 3))
    ∧ (is_whole_number ((5 : ℤ) : ℚ) = true
       ∧ Expression.at' (.list 1 [.number 1 1, .number 1 2, .number 1 3])
           (.number 1 ((5 : ℤ) : ℚ))
         = .error (language_error 1
             ("list index " ++ numStr ((5 : ℤ) : ℚ) ++ " is out of range"))) := by
  have h1 : is_whole_number ((-1 : ℤ) : ℚ) = true := by simp [is_whole_number]
  have h5 : is_whole_number ((5 : ℤ) : ℚ) = true := by simp [is_whole_number]
  refine ⟨⟨h1, ?_⟩, ⟨h5, ?_⟩⟩
  · rw [claim_C8 1 1 _ _ h1]
    have hidx : specPyIndex [.number 1 1, .number 1 2, .number 1 3] ((-1 : ℤ) : ℚ)
        = some (.number 1 3) := by
      simp only [specPyIndex, truncInt, Rat.num_intCast, Rat.den_intCast, Int.tdiv_one]
      norm_num
      rfl
    rw [hidx]
  · rw [claim_C8 1 1 _ _ h5]
    have hidx : specPyIndex [.number 1 1, .number 1 2, .number 1 3] ((5 : ℤ) : ℚ)
        = none := by
      simp only [specPyIndex]
      norm_num
    rw [hidx]

end Boomerang
